import Mathlib

/-!
Shallow embedding of the v8engine bridge layer.

Source files embedded here:
  * `src/unnamed/part_000` — the C++ bridge (`CopyString`, `cb`,
    `ExceptionError`, `Run`, `ResolveCallback`, `LoadModule`,
    `DisposeValue`, `Send`).
  * `src/engine.go` — the Go wrapper (`LoadModule` token handling,
    `getError`, `getValue`, `Value.finalizer`, `ResolveModule`).

The embedded V8 engine itself is opaque; its primitives (compile a
script, run a script, compile a module, instantiate, evaluate) are
modelled as oracle records whose fields the bridge consults exactly
where the C++ code calls into V8.  C strings that may be the null
pointer are `Option String`; byte buffers are `List Nat`; C `int`
status codes are `Int` (Go resolver callbacks may return any integer).
-/

namespace V8Engine

/-- Key-indexed lookup in an association list (models `std::map` /
Go map read: the first binding for the key, if any). -/
def lookupA {β : Type} (l : List (Int × β)) (k : Int) : Option β :=
  match l with
  | [] => none
  | (k0, v) :: rest => if k0 = k then some v else lookupA rest k

/-- String-keyed lookup (models `std::map<std::string, _>`). -/
def lookupS {β : Type} (l : List (String × β)) (k : String) : Option β :=
  match l with
  | [] => none
  | (k0, v) :: rest => if k0 = k then some v else lookupS rest k

/-- Remove every binding of a key (models Go `delete(m, k)` /
`std::map::erase`). -/
def eraseA {β : Type} (l : List (Int × β)) (k : Int) : List (Int × β) :=
  l.filter (fun p => p.1 ≠ k)

/-- Insert-or-replace a binding (models `m[k] = v` on `std::map` and
Go maps; ordering of the remaining bindings is irrelevant to lookup). -/
def insertA {β : Type} (l : List (Int × β)) (k : Int) (v : β) : List (Int × β) :=
  (k, v) :: eraseA l k

/-- String-keyed erase. -/
def eraseS {β : Type} (l : List (String × β)) (k : String) : List (String × β) :=
  l.filter (fun p => p.1 ≠ k)

/-- String-keyed insert-or-replace. -/
def insertS {β : Type} (l : List (String × β)) (k : String) (v : β) : List (String × β) :=
  (k, v) :: eraseS l k

/-- `CopyString(String::Utf8Value&)` (part_000 lines 47-52): returns
the null pointer when the UTF-8 value has length 0, otherwise a
heap-owned copy of the text. -/
def copyStringUtf8 (s : String) : Option String :=
  if s.length = 0 then none else some s

/-- `RtnError` (v8engine.h): three possibly-null C strings. -/
structure RtnError where
  msg : Option String
  location : Option String
  stack : Option String
  deriving Repr, DecidableEq

/-- The zero-initialised `RtnError` (`{nullptr, nullptr, nullptr}`). -/
def RtnError.empty : RtnError := ⟨none, none, none⟩

/-- Snapshot of `v8::Message` as `ExceptionError` reads it: the script
origin's resource name (as UTF-8), `GetLineNumber` and
`GetStartColumn` (both `Maybe<int>`, zero-indexed column). -/
structure MessageInfo where
  resourceName : String
  lineNumber : Option Int
  startColumn : Option Int
  deriving Repr, DecidableEq

/-- Snapshot of a `TryCatch` at the point `ExceptionError` inspects
it: `HasTerminated`, the UTF-8 text of `Exception()`, `Message()`
(empty local handle ↦ `none`), and `StackTrace(context)` (empty
`MaybeLocal` ↦ `none`, otherwise its UTF-8 text). -/
structure TryCatchInfo where
  hasTerminated : Bool
  exceptionText : String
  message : Option MessageInfo
  stackText : Option String
  deriving Repr, DecidableEq

/-- `ExceptionError` (part_000 lines 99-141).  Terminated execution
yields a fixed message and nothing else.  Otherwise: the message is the
exception text through `CopyString(Utf8Value&)`; when `Message()` is
non-empty the location is the resource name followed by `":" ++ line`
when the line is `Just` and `":" ++ (startColumn + 1)` when the column
is `Just` (the `+ 1` matches stack-trace column convention); the stack
is the stack-trace text through `CopyString(Utf8Value&)`. -/
def ExceptionError (tc : TryCatchInfo) : RtnError :=
  if tc.hasTerminated then
    { msg := some "ExecutionTerminated: script execution has been terminated",
      location := none, stack := none }
  else
    { msg := copyStringUtf8 tc.exceptionText,
      location :=
        match tc.message with
        | none => none
        | some m =>
            some (m.resourceName
              ++ (match m.lineNumber with
                  | some l => ":" ++ toString l
                  | none => "")
              ++ (match m.startColumn with
                  | some c => ":" ++ toString (c + 1)
                  | none => "")),
      stack := tc.stackText.bind copyStringUtf8 }

/-- Opaque handle to a script-produced value (`Persistent<Value>`). -/
abbrev JSVal := Nat

/-- `RtnValue` (v8engine.h): a possibly-null value pointer plus an
`RtnError`. -/
structure RtnValue where
  value : Option JSVal
  error : RtnError
  deriving Repr, DecidableEq

/-- Outcome of `Script::Run` on a successfully compiled script. -/
inductive ScriptOutcome where
  | ok (v : JSVal)
  | thrown (tc : TryCatchInfo)
  deriving Repr, DecidableEq

/-- Oracle for the opaque script engine.  `compileScript src tag`
models `Script::Compile` on source `src` whose `ScriptOrigin` resource
name is `tag` (`some tc` = compile failed with that `TryCatch` state);
`runScript src tag` models running the compiled script. -/
structure ScriptEngine where
  compileScript : String → String → Option TryCatchInfo
  runScript : String → String → ScriptOutcome

/-- `Run` (part_000 lines 179-218).  Lines 190-195 build **both**
`lSource` and `lOrigin` with `String::NewFromUtf8(isolate, source, ...)`:
the `origin` parameter of the C function is never read, so the script
is compiled with its own source text as the origin tag. -/
def Run (eng : ScriptEngine) (source : String) (origin : String) : RtnValue :=
  let lSource := source
  let lOrigin := source
  match eng.compileScript lSource lOrigin with
  | some tc => { value := none, error := ExceptionError tc }
  | none =>
      match eng.runScript lSource lOrigin with
      | .thrown tc => { value := none, error := ExceptionError tc }
      | .ok v => { value := some v, error := RtnError.empty }

/-- `JSError` (engine.go lines 176-180). -/
structure JSError where
  Message : String
  Location : String
  StackTrace : String
  deriving Repr, DecidableEq

/-- `C.GoString` on a possibly-null C string: the null pointer reads
as the empty Go string. -/
def goString (s : Option String) : String := s.getD ""

/-- `getError` (engine.go lines 105-118): a nil `msg` pointer means no
error; otherwise the three strings are copied into a `JSError`. -/
def getError (rtn : RtnValue) : Option JSError :=
  match rtn.error.msg with
  | none => none
  | some m => some ⟨m, goString rtn.error.location, goString rtn.error.stack⟩

/-- `getValue` (engine.go lines 96-103): nil value pointer ↦ nil. -/
def getValue (rtn : RtnValue) : Option JSVal := rtn.value

/-- `Engine.Run` (engine.go lines 44-52): runs the C `Run` and splits
the result into the Go-level `(*Value, error)` pair. -/
def EngineRun (eng : ScriptEngine) (source : String) (origin : String) :
    Option JSVal × Option JSError :=
  let rtn := Run eng source origin
  (getValue rtn, getError rtn)

/-- A compiled module unit as the bridge observes it: its declared
dependency specifiers (`GetModuleRequest i` for
`i < GetModuleRequestsLength()`, as UTF-8) and its engine identity
token (`GetIdentityHash`). -/
structure ModuleInfo where
  requests : List String
  identityHash : Int
  deriving Repr, DecidableEq

/-- Outcome of `ScriptCompiler::CompileModule`. -/
inductive CompileModuleResult where
  | ok (m : ModuleInfo)
  | fail (tc : TryCatchInfo)

/-- Oracle for the opaque engine's module primitives.
`compileModule source name` models `ScriptCompiler::CompileModule` on
the given source with `name` as the origin resource name.
`instantiateModule` models `Module::InstantiateModule`'s
`Maybe<bool>` result (the C reads it with `FromMaybe(false)`).
`evaluateModule` models `Module::Evaluate`'s `MaybeLocal<Value>`
(`none` = empty handle, i.e. evaluation threw). -/
structure ModuleEngine where
  compileModule : String → String → CompileModuleResult
  instantiateModule : ModuleInfo → Option Bool
  evaluateModule : ModuleInfo → Option JSVal

/-- A registered message callback: given the byte contents of the
buffer argument, either throws (`some tc`) or returns normally. -/
abbrev Callback := List Nat → Option TryCatchInfo

/-- `m_ctx` (part_000 lines 22-30): the per-context state the bridge
mutates — the name→module registry `modules`, the
identity-hash→(specifier→module) table `resolved`, and the single
message-callback slot `cb` (`Persistent<Function>`, empty ↦ `none`). -/
structure MCtx where
  modules : List (String × ModuleInfo)
  resolved : List (Int × List (String × ModuleInfo))
  cb : Option Callback

/-- A fresh context's registries and callback slot (`NewContext`
leaves `modules`, `resolved` and `cb` default-constructed). -/
def MCtx.init : MCtx := ⟨[], [], none⟩

/-- `ModuleResolverCallback` (engine.go line 152): maps
`(moduleName, referrerName)` to a canonical name and a status (a Go
`int`, 64-bit). -/
abbrev Resolver := String → String → String × Int

/-- Two's-complement truncation to a 32-bit C `int`: the cgo
conversion `C.int(x)` applied to a 64-bit Go `int` keeps the low 32
bits (2147483648 = 2^31, 4294967296 = 2^32). -/
def wrap32 (n : Int) : Int := (n + 2147483648) % 4294967296 - 2147483648

/-- Two's-complement wrap-around of a 64-bit Go `int`
(9223372036854775808 = 2^63, 18446744073709551616 = 2^64): Go's `++`
on `int` overflows by wrapping. -/
def wrap64 (n : Int) : Int :=
  (n + 9223372036854775808) % 18446744073709551616 - 9223372036854775808

/-- The Go-side resolver table (engine.go lines 145-149):
`nextResolverToken` and `resolverFuncs`, guarded by
`resolverTableLock` (lock acquisition is modelled by the atomicity of
each state transition in this sequential embedding). -/
structure ResolverState where
  nextResolverToken : Int
  resolverFuncs : List (Int × Resolver)

/-- `ResolveModule` (engine.go lines 156-170): looks the token up in
`resolverFuncs`; a missing entry (Go map zero value `nil`) returns
`(nil, 1)` without calling any resolver; otherwise the resolver's
canonical name is returned (`C.CString(canon)` is never null, hence
`some canon` even on non-zero status) together with its status
converted by `C.int(ret)` (engine.go line 169), which truncates the
64-bit Go status to a 32-bit C `int` — e.g. 2^32 reaches the C caller
as 0.  (The incoming `resolverToken` parameter is a Go `int` widened
from the C caller's 32-bit `callback_index`; widening preserves the
value.) -/
def ResolveModule (st : ResolverState) (moduleSpecifier : String)
    (referrerSpecifier : String) (resolverToken : Int) : Option String × Int :=
  match lookupA st.resolverFuncs resolverToken with
  | none => (none, 1)
  | some resolve =>
      let r := resolve moduleSpecifier referrerSpecifier
      (some r.1, wrap32 r.2)

/-- `ResolveCallback` (part_000 lines 220-242): consults the
context's `resolved` table by referrer identity hash, then by
specifier; any miss is an empty `MaybeLocal<Module>`. -/
def ResolveCallback (ctx : MCtx) (specifier : String) (referrerHash : Int) :
    Option ModuleInfo :=
  match lookupA ctx.resolved referrerHash with
  | none => none
  | some localResolve => lookupS localResolve specifier

/-- The dependency loop of `LoadModule` (part_000 lines 290-308): for
each request, call `ResolveModule`; a non-zero status aborts with that
status verbatim; a canonical name missing from `ctx->modules` aborts
with 2; otherwise `resolved[specifier] = ctx->modules[canon]`.
When the status is 0 the resolver existed, so the returned name is
`some`; `getD ""` only discharges the unreachable `none` case. -/
def resolveDeps (rs : ResolverState) (mods : List (String × ModuleInfo))
    (name_s : String) (tok : Int) :
    List String → List (String × ModuleInfo) →
    Except Int (List (String × ModuleInfo))
  | [], acc => .ok acc
  | dep :: rest, acc =>
      if (ResolveModule rs dep name_s tok).2 ≠ 0 then
        .error (ResolveModule rs dep name_s tok).2
      else
        match lookupS mods ((ResolveModule rs dep name_s tok).1.getD "") with
        | none => .error 2
        | some m => resolveDeps rs mods name_s tok rest (insertS acc dep m)

/-- `LoadModule` (part_000 lines 244-329).  Compile failure prints the
marshalled diagnostic and returns status 1.  Then the dependency loop
runs; its abort status is returned with the context untouched.  On
success the module is registered under `name_s` in `ctx->modules` and
its resolution map under its identity hash in `ctx->resolved`;
instantiation failure returns 3, evaluation failure returns 4 (its
diagnostic printed), success returns 0. -/
def LoadModule (eng : ModuleEngine) (rs : ResolverState) (ctx : MCtx)
    (source_s : String) (name_s : String) (callback_index : Int) :
    MCtx × Int :=
  match eng.compileModule source_s name_s with
  | .fail _tc => (ctx, 1)
  | .ok m =>
      match resolveDeps rs ctx.modules name_s callback_index m.requests [] with
      | .error code => (ctx, code)
      | .ok resolved =>
          let ctx2 : MCtx :=
            { ctx with
              modules := insertS ctx.modules name_s m,
              resolved := insertA ctx.resolved m.identityHash resolved }
          if ¬ ((eng.instantiateModule m).getD false) then (ctx2, 3)
          else
            match eng.evaluateModule m with
            | none => (ctx2, 4)
            | some _v => (ctx2, 0)

/-- `Engine.LoadModule` (engine.go lines 55-76): under the table lock,
increment `nextResolverToken` (a 64-bit Go `int`, so the increment
wraps two's-complement), take the new value as the call's token and
bind it to `resolve`; call the C `LoadModule` with `C.int(token)`
(line 67), the token truncated to a 32-bit C `int`; then, again under
the lock, delete the binding — on every return path, whatever the
status. -/
def GoLoadModule (eng : ModuleEngine) (st : ResolverState) (ctx : MCtx)
    (source : String) (origin : String) (resolve : Resolver) :
    ResolverState × MCtx × Int :=
  let token := wrap64 (st.nextResolverToken + 1)
  let st1 : ResolverState := ⟨token, insertA st.resolverFuncs token resolve⟩
  let r := LoadModule eng st1 ctx source origin (wrap32 token)
  let st2 : ResolverState := ⟨st1.nextResolverToken, eraseA st1.resolverFuncs token⟩
  (st2, r.1, r.2)

/-- A sequence of `Engine.LoadModule` calls threaded through the
resolver table and one context, also recording the token each call
allocated. -/
def runLoads (eng : ModuleEngine) (st : ResolverState) (ctx : MCtx) :
    List (String × String × Resolver) → ResolverState × MCtx × List Int
  | [] => (st, ctx, [])
  | (src, org, r) :: rest =>
      let tok := wrap64 (st.nextResolverToken + 1)
      let step := GoLoadModule eng st ctx src org r
      let tail := runLoads eng step.1 step.2.1 rest
      (tail.1, tail.2.1, tok :: tail.2.2)

/-- `cb` (part_000 lines 82-95): the script-visible registration
function; `ctx->cb.Reset(isolate, func)` stores the function in the
single callback slot, replacing any previous occupant. -/
def cbRegister (ctx : MCtx) (f : Callback) : MCtx := { ctx with cb := some f }

/-- `Send` (part_000 lines 392-433).  An empty callback slot returns
2.  Otherwise the payload bytes are wrapped as the backing store of a
fresh `ArrayBuffer` (same memory, so the view's contents equal the
payload byte-for-byte) and the callback is called once with that
buffer as its only argument; a caught exception prints its marshalled
message and stack and returns 3, otherwise the status is 0.  The
second component records each callback invocation with its buffer
contents (observable only through side effects in the C code). -/
def Send (ctx : MCtx) (data : List Nat) : Int × List (Callback × List Nat) :=
  match ctx.cb with
  | none => (2, [])
  | some f =>
      match f data with
      | some _tc => (3, [(f, data)])
      | none => (0, [(f, data)])

/-- `m_value` (part_000 lines 32-35): a persistent value handle and a
back-pointer to its context (`none` models a null `m_ctx*`). -/
structure MValue where
  context : Option Nat

/-- The set of live `m_value` allocations, keyed by address. -/
structure ValueHeap where
  live : List (Int × MValue)

/-- `DisposeValue` (part_000 lines 363-382): a null pointer is a
no-op; a null context pointer is a no-op; otherwise the persistent
handle is reset and the `m_value` freed.  (A dangling pointer would be
undefined behaviour in the C++; the Go wrapper never produces one, and
the model leaves the heap unchanged in that unreachable case.) -/
def DisposeValue (h : ValueHeap) (ptr : Option Int) : ValueHeap :=
  match ptr with
  | none => h
  | some addr =>
      match lookupA h.live addr with
      | none => h
      | some v => if v.context.isNone then h else ⟨eraseA h.live addr⟩

/-- `Value` (engine.go lines 121-123): the Go-side handle, holding a
possibly-nil C pointer. -/
structure GoValue where
  ptr : Option Int

/-- `Value.finalizer` (engine.go lines 133-137): calls the C
`DisposeValue` on the stored pointer, then nils the pointer (and
clears the Go finalizer). -/
def valueFinalizer (h : ValueHeap) (v : GoValue) : ValueHeap × GoValue :=
  (DisposeValue h v.ptr, ⟨none⟩)

/-- A dependency `d` of a module named `nm` fails to resolve with
status `code`: either the resolution reports the non-zero status
`code` itself — `ResolveModule`'s status field, i.e. the host
resolver's status after the `C.int` truncation — or it reports 0 but
its canonical name is absent from the name→module registry `mods`
(in which case `LoadModule` uses 2). -/
def depFailure (rs : ResolverState) (mods : List (String × ModuleInfo))
    (nm : String) (tok : Int) (d : String) (code : Int) : Prop :=
  ((ResolveModule rs d nm tok).2 = code ∧ code ≠ 0) ∨
  ((ResolveModule rs d nm tok).2 = 0 ∧
    lookupS mods ((ResolveModule rs d nm tok).1.getD "") = none ∧ code = 2)

/-- Invariant of the Go resolver table: every registered token is at
most `nextResolverToken` (true initially — the table is empty — and
preserved by every `Engine.LoadModule` call). -/
def tableBounded (st : ResolverState) : Prop :=
  ∀ p ∈ st.resolverFuncs, p.1 ≤ st.nextResolverToken

/-- A V8-faithful probe engine: compilation succeeds and running the
script throws, with the diagnostic's resource name echoing the origin
tag the engine was handed (V8 reports `ScriptOrigin.ResourceName` in
`Message::GetScriptOrigin`). -/
def originProbeEngine : ScriptEngine :=
  { compileScript := fun _src _tag => none,
    runScript := fun _src tag =>
      .thrown ⟨false, "Error: boom", some ⟨tag, some 1, some 0⟩, none⟩ }

/-- Engine behaviour of the script `throw \x27\x27`: compilation
succeeds, evaluation throws the empty string, whose UTF-8 text is
empty; the `Message` is present; no stack text is obtainable for a
thrown primitive. -/
def throwEmptyEngine : ScriptEngine :=
  { compileScript := fun _src _tag => none,
    runScript := fun _src tag =>
      .thrown ⟨false, "", some ⟨tag, some 1, some 0⟩, none⟩ }

/-- A module engine whose compiled module declares one dependency
`"dep"` and otherwise succeeds. -/
def depModuleEngine : ModuleEngine :=
  { compileModule := fun _ _ => .ok ⟨["dep"], 7⟩,
    instantiateModule := fun _ => some true,
    evaluateModule := fun _ => some 0 }

/-- A host resolver that reports failure with status 7. -/
def resolver7 : Resolver := fun _ _ => ("dep", 7)

/-- A host resolver that reports failure with status 9. -/
def resolver9 : Resolver := fun _ _ => ("dep", 9)

/-- A host resolver that reports failure with status 2^32, which the
`C.int` conversion at engine.go line 169 truncates to 0. -/
def resolver4G : Resolver := fun _ _ => ("dep", 4294967296)

/-- A host resolver that reports failure with status 2^32 + 5, which
the `C.int` conversion at engine.go line 169 truncates to 5. -/
def resolver4G5 : Resolver := fun _ _ => ("dep", 4294967301)

/-- A context whose name→module registry already holds a module named
`"dep"`. -/
def ctxWithDep : MCtx := ⟨[("dep", ⟨[], 42⟩)], [], none⟩

/-- A module engine whose compilation always fails with a syntax
diagnostic. -/
def cFailEngine : ModuleEngine :=
  { compileModule := fun _ _ =>
      .fail ⟨false, "SyntaxError: unexpected token", some ⟨"m.js", some 1, some 0⟩, none⟩,
    instantiateModule := fun _ => some true,
    evaluateModule := fun _ => some 0 }

/-- A module engine whose compiled module has no dependencies and
instantiates and evaluates successfully. -/
def noDepEngine : ModuleEngine :=
  { compileModule := fun _ _ => .ok ⟨[], 3⟩,
    instantiateModule := fun _ => some true,
    evaluateModule := fun _ => some 0 }

/-- A module engine whose compiled module has one dependency, used to
exercise a load whose resolver-token association is missing. -/
def oneDepEngine : ModuleEngine :=
  { compileModule := fun _ _ => .ok ⟨["d"], 11⟩,
    instantiateModule := fun _ => some true,
    evaluateModule := fun _ => some 0 }

/-- Claim C1 (code bug): `Run` is claimed to compile the script tagged
with `originName`, so that `Run(ctx, "throw new Error(\x27boom\x27)",
"test.js")` yields an Error whose location references `"test.js"`.  In
the code (part_000 lines 190-195) both `lSource` and `lOrigin` are
built from `source`; the `origin` argument is never read.  Hence
`Run`'s result is independent of the origin argument, and against an
engine that echoes the origin tag into the diagnostic (as V8 does),
the error's location references the source text, not `"test.js"`. -/
theorem run_tags_script_with_source_text :
    (∀ (eng : ScriptEngine) (src org1 org2 : String),
        Run eng src org1 = Run eng src org2) ∧
    (EngineRun originProbeEngine "throw new Error(\x27boom\x27)" "test.js").2 =
      some ⟨"Error: boom", "throw new Error(\x27boom\x27):1:1", ""⟩ := by
  refine ⟨fun eng src o1 o2 => rfl, ?_⟩
  decide

/-- Claim C4: `Send` returns 2 when no callback is registered in the
context's slot, regardless of payload; 3 when the invoked callback
throws; 0 otherwise. -/
theorem send_status_codes (ctx : MCtx) (data : List Nat) :
    (ctx.cb = none → (Send ctx data).1 = 2) ∧
    (∀ f : Callback, ctx.cb = some f →
      ((∃ tc, f data = some tc) → (Send ctx data).1 = 3) ∧
      (f data = none → (Send ctx data).1 = 0)) := by
  refine ⟨fun h => by simp [Send, h], fun f hf => ⟨?_, ?_⟩⟩
  · rintro ⟨tc, htc⟩
    simp [Send, hf, htc]
  · intro h0
    simp [Send, hf, h0]

/-- Witness for `send_status_codes`: a fresh context has no callback
(status 2); a registered throwing callback gives 3; a registered
normal callback gives 0. -/
theorem send_status_codes_witness :
    (Send MCtx.init [1, 2]).1 = 2 ∧
    (Send (cbRegister MCtx.init (fun _ => some ⟨false, "e", none, none⟩)) [5]).1 = 3 ∧
    (Send (cbRegister MCtx.init (fun _ => none)) [5]).1 = 0 := by
  refine ⟨(send_status_codes MCtx.init [1, 2]).1 rfl, ?_, ?_⟩
  · exact ((send_status_codes
      (cbRegister MCtx.init (fun _ => some ⟨false, "e", none, none⟩)) [5]).2
      (fun _ => some ⟨false, "e", none, none⟩) rfl).1 ⟨⟨false, "e", none, none⟩, rfl⟩
  · exact ((send_status_codes (cbRegister MCtx.init (fun _ => none)) [5]).2
      (fun _ => none) rfl).2 rfl

/-- Claim C5: the callback slot holds at most one callback;
registration replaces the previous occupant; after registering `f`, a
`Send` invokes exactly the most recently registered callback, exactly
once, with buffer contents equal to the payload byte-for-byte. -/
theorem send_invokes_latest_callback_once (ctx : MCtx) (f f1 f2 : Callback)
    (bytes : List Nat) :
    (cbRegister ctx f).cb = some f ∧
    cbRegister (cbRegister ctx f1) f2 = cbRegister ctx f2 ∧
    (Send (cbRegister ctx f) bytes).2 = [(f, bytes)] ∧
    (Send (cbRegister (cbRegister ctx f1) f2) bytes).2 = [(f2, bytes)] := by
  refine ⟨rfl, rfl, ?_, ?_⟩
  · cases h : f bytes <;> simp [Send, cbRegister, h]
  · cases h : f2 bytes <;> simp [Send, cbRegister, h]

/-- Claim C6: the error marshaller gives a terminated execution a
fixed message with no location and no stack; otherwise, when a
diagnostic message is available, the location is
`origin:line:column` with the engine's zero-indexed column plus one,
and an unavailable line or column segment is omitted. -/
theorem exceptionError_location_format (tc : TryCatchInfo) :
    (tc.hasTerminated = true →
      ExceptionError tc =
        ⟨some "ExecutionTerminated: script execution has been terminated",
         none, none⟩) ∧
    (tc.hasTerminated = false → ∀ m, tc.message = some m →
      (∀ l c, m.lineNumber = some l → m.startColumn = some c →
        (ExceptionError tc).location =
          some (m.resourceName ++ ":" ++ toString l ++ ":" ++ toString (c + 1))) ∧
      (∀ l, m.lineNumber = some l → m.startColumn = none →
        (ExceptionError tc).location = some (m.resourceName ++ ":" ++ toString l)) ∧
      (∀ c, m.lineNumber = none → m.startColumn = some c →
        (ExceptionError tc).location =
          some (m.resourceName ++ ":" ++ toString (c + 1))) ∧
      (m.lineNumber = none → m.startColumn = none →
        (ExceptionError tc).location = some m.resourceName)) := by
  constructor
  · intro ht
    simp [ExceptionError, ht]
  · intro ht m hm
    refine ⟨?_, ?_, ?_, ?_⟩ <;> intros <;>
      simp_all [ExceptionError, String.append_assoc]

/-- Witness for `exceptionError_location_format`: termination gives
the fixed message; a throw reported at line 2, zero-indexed start
column 2 (the third character) yields location `"test.js:2:3"`, which
ends in `":2:3"`. -/
theorem exceptionError_location_format_witness :
    (ExceptionError ⟨true, "x", none, none⟩ =
      ⟨some "ExecutionTerminated: script execution has been terminated",
       none, none⟩) ∧
    (ExceptionError
        ⟨false, "Error: boom", some ⟨"test.js", some 2, some 2⟩, none⟩).location =
      some "test.js:2:3" ∧
    "test.js:2:3" = "test.js" ++ ":2:3" := by
  refine ⟨(exceptionError_location_format ⟨true, "x", none, none⟩).1 rfl, ?_, by decide⟩
  have h := ((exceptionError_location_format
      ⟨false, "Error: boom", some ⟨"test.js", some 2, some 2⟩, none⟩).2 rfl
      ⟨"test.js", some 2, some 2⟩ rfl).1 2 2 rfl rfl
  exact h.trans (by decide)

/-- Claim C7 (code bug): the spec claims a runtime failure always
yields an Error and no Value.  For the script `throw \x27\x27` the
thrown exception's UTF-8 text is empty, so `CopyString` (part_000
lines 47-52) returns the null pointer for `msg`, and `getError`
(engine.go lines 105-118) treats a nil `msg` as "no error": the Go
`Run` returns neither a Value nor an Error even though the script
threw. -/
theorem run_throw_empty_string_swallowed :
    EngineRun throwEmptyEngine "throw \x27\x27" "test.js" = (none, none) ∧
    (∀ src tag, ∃ tc, throwEmptyEngine.runScript src tag = .thrown tc) := by
  refine ⟨by decide, fun src tag => ⟨⟨false, "", some ⟨tag, some 1, some 0⟩, none⟩, rfl⟩⟩

/-- Claim C9: disposal of a Value Handle is idempotent at the host
interface — disposing a null handle is a no-op, and after the Go
finalizer has disposed a handle (and nilled its pointer), running the
finalizer again changes nothing. -/
theorem disposeValue_idempotent (h : ValueHeap) (v : GoValue) :
    DisposeValue h none = h ∧
    valueFinalizer (valueFinalizer h v).1 (valueFinalizer h v).2 =
      ((valueFinalizer h v).1, (valueFinalizer h v).2) :=
  ⟨rfl, rfl⟩

/-- Claim C10: `ResolveModule` with a token absent from the resolver
table returns a null module name and status 1 without consulting any
resolver, and a `LoadModule` whose module has a dependency and whose
token association is missing aborts with status 1, leaving the
context untouched. -/
theorem resolveModule_missing_token (st : ResolverState) (spec ref : String)
    (tok : Int) (hmiss : lookupA st.resolverFuncs tok = none) :
    ResolveModule st spec ref tok = (none, 1) ∧
    (∀ (eng : ModuleEngine) (ctx : MCtx) (src nm : String) (m : ModuleInfo)
        (d : String) (rest : List String),
      eng.compileModule src nm = .ok m → m.requests = d :: rest →
      LoadModule eng st ctx src nm tok = (ctx, 1)) := by
  refine ⟨by simp [ResolveModule, hmiss], ?_⟩
  intro eng ctx src nm m d rest hc hreq
  have hd : ResolveModule st d nm tok = (none, 1) := by
    simp [ResolveModule, hmiss]
  simp [LoadModule, hc, hreq, resolveDeps, hd]

/-- Witness for `resolveModule_missing_token`: an empty resolver table
with token 5. -/
theorem resolveModule_missing_token_witness :
    ResolveModule ⟨0, []⟩ "d" "m.js" 5 = (none, 1) ∧
    LoadModule oneDepEngine ⟨0, []⟩ MCtx.init "src" "m.js" 5 = (MCtx.init, 1) := by
  have h := resolveModule_missing_token ⟨0, []⟩ "d" "m.js" 5 rfl
  exact ⟨h.1, h.2 oneDepEngine MCtx.init "src" "m.js" ⟨["d"], 11⟩ "d" [] rfl rfl⟩

/-- If the dependency loop aborts with `code`, then `code` is non-zero
and some dependency in the list failed with `code` in the sense of
`depFailure` (non-zero resolution status propagated verbatim, or a
canonical name missing from the registry, in which case `code = 2`). -/
theorem resolveDeps_error_spec (rs : ResolverState)
    (mods : List (String × ModuleInfo)) (nm : String) (tok : Int) :
    ∀ (deps : List String) (acc : List (String × ModuleInfo)) (code : Int),
      resolveDeps rs mods nm tok deps acc = .error code →
      code ≠ 0 ∧ ∃ d ∈ deps, depFailure rs mods nm tok d code := by
  intro deps
  induction deps with
  | nil =>
      intro acc code h
      simp [resolveDeps] at h
  | cons dep rest ih =>
      intro acc code h
      simp only [resolveDeps] at h
      split at h
      · rename_i hz
        injection h with h1
        exact ⟨h1 ▸ hz, dep, List.mem_cons_self dep rest,
          Or.inl ⟨h1, h1 ▸ hz⟩⟩
      · rename_i hz
        have hz0 : (ResolveModule rs dep nm tok).2 = 0 := not_not.mp hz
        split at h
        · rename_i hl
          injection h with h1
          refine ⟨h1 ▸ (by decide), dep, List.mem_cons_self dep rest,
            Or.inr ⟨hz0, hl, h1.symm⟩⟩
        · rename_i m0 hl
          obtain ⟨hc0, d, hd, hdf⟩ := ih _ _ h
          exact ⟨hc0, d, List.mem_cons_of_mem dep hd, hdf⟩

/-- Conversely, if some dependency in the list fails to resolve, the
dependency loop aborts with some status code. -/
theorem resolveDeps_error_of_depFailure (rs : ResolverState)
    (mods : List (String × ModuleInfo)) (nm : String) (tok : Int) :
    ∀ (deps : List String) (acc : List (String × ModuleInfo)),
      (∃ d ∈ deps, ∃ c, depFailure rs mods nm tok d c) →
      ∃ code, resolveDeps rs mods nm tok deps acc = .error code := by
  intro deps
  induction deps with
  | nil =>
      intro acc h
      obtain ⟨d, hd, _⟩ := h
      exact absurd hd (List.not_mem_nil d)
  | cons dep rest ih =>
      intro acc h
      by_cases hz : (ResolveModule rs dep nm tok).2 = 0
      · cases hl : lookupS mods ((ResolveModule rs dep nm tok).1.getD "") with
        | none => exact ⟨2, by simp [resolveDeps, hz, hl]⟩
        | some m0 =>
            obtain ⟨d, hd, c, hdf⟩ := h
            rcases List.mem_cons.mp hd with rfl | hdrest
            · rcases hdf with ⟨h1, h2⟩ | ⟨h1, h2, h3⟩
              · exact absurd (h1.symm.trans hz) h2
              · rw [h2] at hl
                cases hl
            · obtain ⟨code, hcode⟩ := ih (insertS acc dep m0) ⟨d, hdrest, c, hdf⟩
              exact ⟨code, by simp [resolveDeps, hz, hl, hcode]⟩
      · exact ⟨(ResolveModule rs dep nm tok).2, by simp [resolveDeps, hz]⟩

/-- A compile failure makes `LoadModule` print the diagnostic and
return status 1 with the context untouched (part_000 lines 283-288). -/
theorem loadModule_compile_fail (eng : ModuleEngine) (rs : ResolverState)
    (ctx : MCtx) (src nm : String) (tok : Int) (tc : TryCatchInfo)
    (hc : eng.compileModule src nm = .fail tc) :
    LoadModule eng rs ctx src nm tok = (ctx, 1) := by
  simp [LoadModule, hc]

/-- An abort of the dependency loop is returned verbatim by
`LoadModule` with the context untouched (part_000 lines 299-305). -/
theorem loadModule_deps_error (eng : ModuleEngine) (rs : ResolverState)
    (ctx : MCtx) (src nm : String) (tok : Int) (m : ModuleInfo) (code : Int)
    (hc : eng.compileModule src nm = .ok m)
    (he : resolveDeps rs ctx.modules nm tok m.requests [] = .error code) :
    LoadModule eng rs ctx src nm tok = (ctx, code) := by
  simp [LoadModule, hc, he]

/-- Counterexample to claim C2 as stated: the status codes are not
confined to the enumeration 0-4 — a host resolver that reports
failure with status 7 makes `LoadModule` return 7; the resolver's
status is not propagated verbatim either — status 2^32 + 5 is
truncated by `C.int` (engine.go line 169) and the load returns 5;
and a compile failure returns the bare status 1 (the code shared
with resolver failure), not an Error value. -/
theorem loadModule_propagates_status_seven :
    (LoadModule depModuleEngine ⟨1, [(1, resolver7)]⟩ MCtx.init "src" "m.js" 1).2 = 7 ∧
    ¬((7 : Int) = 0 ∨ (7 : Int) = 1 ∨ (7 : Int) = 2 ∨ (7 : Int) = 3 ∨ (7 : Int) = 4) ∧
    (LoadModule depModuleEngine ⟨1, [(1, resolver4G5)]⟩ MCtx.init "s5" "m.js" 1).2 = 5 ∧
    resolver4G5 "dep" "m.js" = ("dep", 4294967301) ∧
    LoadModule cFailEngine ⟨0, []⟩ MCtx.init "x" "m.js" 1 = (MCtx.init, 1) :=
  ⟨rfl, by decide, by decide, rfl, rfl⟩

/-- Claim C2 (amended): `LoadModule` returns 0 on success; a failing
dependency resolution's non-zero status as truncated to a 32-bit C
`int` by `C.int(ret)` (engine.go line 169) — a truncated status of 0
lets the load proceed as success; 2 also standing for a canonical
name unknown to the registry; 3 on instantiation failure; 4 on
evaluation failure; and 1 on compile failure, with the diagnostic
printed as a side effect rather than returned as an Error.  The last
conjunct states the truncation: a registered resolver's reported
status reaches the load as `wrap32` of its value. -/
theorem loadModule_status_code_spec
    (eng : ModuleEngine) (rs : ResolverState) (ctx : MCtx)
    (src nm : String) (tok : Int) :
    (∀ tc, eng.compileModule src nm = .fail tc →
        LoadModule eng rs ctx src nm tok = (ctx, 1)) ∧
    (∀ m, eng.compileModule src nm = .ok m →
      (∀ code, resolveDeps rs ctx.modules nm tok m.requests [] = .error code →
        LoadModule eng rs ctx src nm tok = (ctx, code) ∧ code ≠ 0 ∧
          ∃ d ∈ m.requests, depFailure rs ctx.modules nm tok d code) ∧
      (∀ res, resolveDeps rs ctx.modules nm tok m.requests [] = .ok res →
        ((eng.instantiateModule m).getD false = false →
            (LoadModule eng rs ctx src nm tok).2 = 3) ∧
        ((eng.instantiateModule m).getD false = true →
          (eng.evaluateModule m = none →
              (LoadModule eng rs ctx src nm tok).2 = 4) ∧
          (∀ v, eng.evaluateModule m = some v →
              (LoadModule eng rs ctx src nm tok).2 = 0)))) ∧
    (∀ (r : Resolver) (spec ref : String) (t : Int),
      lookupA rs.resolverFuncs t = some r →
      ResolveModule rs spec ref t = (some (r spec ref).1, wrap32 (r spec ref).2)) := by
  refine ⟨fun tc hc => loadModule_compile_fail eng rs ctx src nm tok tc hc,
    fun m hc => ⟨?_, ?_⟩,
    fun r spec ref t hr => by simp [ResolveModule, hr]⟩
  · intro code he
    obtain ⟨hc0, hex⟩ := resolveDeps_error_spec rs ctx.modules nm tok m.requests [] code he
    exact ⟨loadModule_deps_error eng rs ctx src nm tok m code hc he, hc0, hex⟩
  · intro res hres
    refine ⟨fun hinst => by simp [LoadModule, hc, hres, hinst], fun hinst => ⟨?_, ?_⟩⟩
    · intro hev
      simp [LoadModule, hc, hres, hinst, hev]
    · intro v hev
      simp [LoadModule, hc, hres, hinst, hev]

/-- Witness for `loadModule_status_code_spec`: a compile failure
returns status 1; a dependency-free module that instantiates and
evaluates returns status 0; a registered resolver's status reaches
the load truncated (here 7, unchanged by truncation). -/
theorem loadModule_status_code_spec_witness :
    LoadModule cFailEngine ⟨0, []⟩ MCtx.init "y" "m.js" 1 = (MCtx.init, 1) ∧
    (LoadModule noDepEngine ⟨0, []⟩ MCtx.init "z" "a.js" 1).2 = 0 ∧
    ResolveModule ⟨1, [(1, resolver7)]⟩ "dep" "m.js" 1 = (some "dep", 7) := by
  refine ⟨(loadModule_status_code_spec cFailEngine ⟨0, []⟩ MCtx.init "y" "m.js" 1).1
    ⟨false, "SyntaxError: unexpected token", some ⟨"m.js", some 1, some 0⟩, none⟩ rfl,
    ?_, ?_⟩
  · have h := ((loadModule_status_code_spec noDepEngine ⟨0, []⟩ MCtx.init "z" "a.js" 1).2.1
      ⟨[], 3⟩ rfl).2 [] rfl
    exact (h.2 rfl).2 0 rfl
  · have h := (loadModule_status_code_spec depModuleEngine ⟨1, [(1, resolver7)]⟩
      MCtx.init "src" "m.js" 1).2.2 resolver7 "dep" "m.js" 1 rfl
    exact h.trans (by decide)

/-- Counterexample to claim C3 as stated: with a resolver that reports
failure with status 9, `LoadModule` on a module with one unresolvable
dependency returns 9 — not 1 or 2.  Worse, a resolver reporting the
non-zero status 2^32 is truncated by `C.int` (engine.go line 169) to
0, so when the canonical name happens to be registered the load
returns 0 and registers the dependent module — the claimed
"never 0" and "registry unchanged" both fail in the program. -/
theorem loadModule_dep_failure_status_nine :
    (LoadModule depModuleEngine ⟨1, [(1, resolver9)]⟩ MCtx.init "s2" "n.js" 1).2 = 9 ∧
    ¬((9 : Int) = 1 ∨ (9 : Int) = 2) ∧
    resolver4G "dep" "n.js" = ("dep", 4294967296) ∧
    ¬((4294967296 : Int) = 0) ∧
    (LoadModule depModuleEngine ⟨1, [(1, resolver4G)]⟩ ctxWithDep "s4" "n.js" 1).2 = 0 ∧
    lookupS (LoadModule depModuleEngine ⟨1, [(1, resolver4G)]⟩
        ctxWithDep "s4" "n.js" 1).1.modules "n.js" = some ⟨["dep"], 7⟩ :=
  ⟨rfl, by decide, rfl, by decide, by decide, by decide⟩

/-- Claim C3 (amended): a `LoadModule` on a module with at least one
dependency whose resolution fails *as observed through the `C.int`
truncation* — the truncated resolver status is non-zero (`depFailure`
is stated over `ResolveModule`, whose status field carries the
`wrap32`-truncated value), or the canonical name is absent from the
registry — returns a non-zero status: the failing dependency's
truncated resolver status, or 2 for an unknown name — never 0, and
the context's name→module registry is unchanged.  (A non-zero
resolver status that truncates to 0, such as 2^32, is instead treated
as success.) -/
theorem loadModule_dep_failure_nonzero_registry_unchanged
    (eng : ModuleEngine) (rs : ResolverState) (ctx : MCtx) (src nm : String)
    (tok : Int) (m : ModuleInfo)
    (hc : eng.compileModule src nm = .ok m)
    (hfail : ∃ d ∈ m.requests, ∃ c, depFailure rs ctx.modules nm tok d c) :
    ∃ code, LoadModule eng rs ctx src nm tok = (ctx, code) ∧ code ≠ 0 ∧
      (∃ d ∈ m.requests, depFailure rs ctx.modules nm tok d code) ∧
      (LoadModule eng rs ctx src nm tok).1.modules = ctx.modules := by
  obtain ⟨code, he⟩ :=
    resolveDeps_error_of_depFailure rs ctx.modules nm tok m.requests [] hfail
  obtain ⟨hc0, hex⟩ := resolveDeps_error_spec rs ctx.modules nm tok m.requests [] code he
  have hl := loadModule_deps_error eng rs ctx src nm tok m code hc he
  exact ⟨code, hl, hc0, hex, by rw [hl]⟩

/-- Witness for `loadModule_dep_failure_nonzero_registry_unchanged`:
one dependency whose resolver reports status 9. -/
theorem loadModule_dep_failure_nonzero_registry_unchanged_witness :
    ∃ code, LoadModule depModuleEngine ⟨1, [(1, resolver9)]⟩ MCtx.init "s3" "n.js" 1 =
        (MCtx.init, code) ∧ code ≠ 0 ∧
      (∃ d ∈ (⟨["dep"], 7⟩ : ModuleInfo).requests,
        depFailure ⟨1, [(1, resolver9)]⟩ MCtx.init.modules "n.js" 1 d code) ∧
      (LoadModule depModuleEngine ⟨1, [(1, resolver9)]⟩ MCtx.init "s3" "n.js" 1).1.modules =
        MCtx.init.modules :=
  loadModule_dep_failure_nonzero_registry_unchanged depModuleEngine
    ⟨1, [(1, resolver9)]⟩ MCtx.init "s3" "n.js" 1 ⟨["dep"], 7⟩ rfl
    ⟨"dep", List.mem_cons_self "dep" [], 9, Or.inl ⟨rfl, by decide⟩⟩

/-- A successful `lookupA` exhibits a binding in the list. -/
theorem lookupA_some_mem {β : Type} :
    ∀ (l : List (Int × β)) (k : Int) (v : β), lookupA l k = some v → (k, v) ∈ l := by
  intro l
  induction l with
  | nil =>
      intro k v h
      simp [lookupA] at h
  | cons p rest ih =>
      obtain ⟨k0, v0⟩ := p
      intro k v h
      simp only [lookupA] at h
      by_cases hk : k0 = k
      · rw [if_pos hk] at h
        injection h with h1
        subst hk
        subst h1
        exact List.mem_cons_self _ _
      · rw [if_neg hk] at h
        exact List.mem_cons_of_mem _ (ih k v h)

/-- A key strictly above a bound on all keys is absent. -/
theorem lookupA_none_of_bound {β : Type} (l : List (Int × β)) (n k : Int)
    (hb : ∀ p ∈ l, p.1 ≤ n) (hk : n < k) : lookupA l k = none := by
  cases hl : lookupA l k with
  | none => rfl
  | some v =>
      have hmem := lookupA_some_mem l k v hl
      have := hb (k, v) hmem
      omega

/-- Erasing an absent key is the identity. -/
theorem eraseA_eq_self {β : Type} :
    ∀ (l : List (Int × β)) (k : Int), lookupA l k = none → eraseA l k = l := by
  intro l
  induction l with
  | nil =>
      intro k _
      rfl
  | cons p rest ih =>
      obtain ⟨k0, v0⟩ := p
      intro k h
      simp only [lookupA] at h
      by_cases hk : k0 = k
      · rw [if_pos hk] at h
        cases h
      · rw [if_neg hk] at h
        simp only [eraseA, List.filter_cons]
        rw [if_pos (by simpa using hk)]
        have := ih k h
        simp only [eraseA] at this
        rw [this]

/-- Erasing the key of a just-replaced binding drops that binding. -/
theorem eraseA_cons_of_eq {β : Type} (v0 : β) (rest : List (Int × β)) (k : Int) :
    eraseA ((k, v0) :: rest) k = eraseA rest k := by
  simp [eraseA, List.filter_cons]

/-- Inserting a binding for an absent key and erasing it again
restores the original table. -/
theorem eraseA_insertA_of_none {β : Type} (l : List (Int × β)) (k : Int) (v : β)
    (h : lookupA l k = none) : eraseA (insertA l k v) k = l := by
  have h1 : eraseA l k = l := eraseA_eq_self l k h
  show eraseA ((k, v) :: eraseA l k) k = l
  rw [h1, eraseA_cons_of_eq, h1]

/-- The freshly allocated token is visible in the table passed to the
C `LoadModule` call. -/
theorem lookupA_insertA_self {β : Type} (l : List (Int × β)) (k : Int) (v : β) :
    lookupA (insertA l k v) k = some v := by
  simp [insertA, lookupA]

/-- `wrap32` is the identity on values already representable in a
32-bit C `int`. -/
theorem wrap32_eq_self (n : Int) (h1 : -2147483648 ≤ n) (h2 : n < 2147483648) :
    wrap32 n = n := by
  have h0 : (0 : Int) ≤ n + 2147483648 := by omega
  have hlt : n + 2147483648 < 4294967296 := by omega
  unfold wrap32
  rw [Int.emod_eq_of_lt h0 hlt]
  omega

/-- `wrap64` is the identity on values already representable in a
64-bit Go `int`. -/
theorem wrap64_eq_self (n : Int) (h1 : -9223372036854775808 ≤ n)
    (h2 : n < 9223372036854775808) : wrap64 n = n := by
  have h0 : (0 : Int) ≤ n + 9223372036854775808 := by omega
  have hlt : n + 9223372036854775808 < 18446744073709551616 := by omega
  unfold wrap64
  rw [Int.emod_eq_of_lt h0 hlt]
  omega

/-- One `Engine.LoadModule` call, on a table whose keys are bounded by
`nextResolverToken`, when the incremented counter stays in 64-bit
range (no wrap): after the call the table equals the initial table
(the token association is removed on every return path) and the
counter has advanced by one. -/
theorem goLoadModule_state (eng : ModuleEngine) (st : ResolverState) (ctx : MCtx)
    (src org : String) (r : Resolver) (hB : tableBounded st)
    (hlo : -9223372036854775808 ≤ st.nextResolverToken)
    (hhi : st.nextResolverToken + 1 < 9223372036854775808) :
    (GoLoadModule eng st ctx src org r).1.resolverFuncs = st.resolverFuncs ∧
    (GoLoadModule eng st ctx src org r).1.nextResolverToken =
      st.nextResolverToken + 1 := by
  have hw : wrap64 (st.nextResolverToken + 1) = st.nextResolverToken + 1 :=
    wrap64_eq_self _ (by omega) hhi
  have hnone : lookupA st.resolverFuncs (wrap64 (st.nextResolverToken + 1)) = none := by
    rw [hw]
    exact lookupA_none_of_bound st.resolverFuncs st.nextResolverToken _ hB (by omega)
  constructor
  · exact eraseA_insertA_of_none _ _ _ hnone
  · show wrap64 (st.nextResolverToken + 1) = st.nextResolverToken + 1
    exact hw

/-- The key bound is preserved across a non-wrapping
`Engine.LoadModule` call. -/
theorem goLoadModule_bounded (eng : ModuleEngine) (st : ResolverState) (ctx : MCtx)
    (src org : String) (r : Resolver) (hB : tableBounded st)
    (hlo : -9223372036854775808 ≤ st.nextResolverToken)
    (hhi : st.nextResolverToken + 1 < 9223372036854775808) :
    tableBounded (GoLoadModule eng st ctx src org r).1 := by
  obtain ⟨hf, hn⟩ := goLoadModule_state eng st ctx src org r hB hlo hhi
  intro p hp
  rw [hf] at hp
  rw [hn]
  have := hB p hp
  omega

/-- Across any sequence of `Engine.LoadModule` calls from a bounded
table, provided the 64-bit counter does not wrap during the sequence:
every allocated token exceeds the initial counter, the allocated
tokens are strictly increasing, and the final table equals the
initial table. -/
theorem runLoads_spec (eng : ModuleEngine) :
    ∀ (calls : List (String × String × Resolver)) (st : ResolverState) (ctx : MCtx),
      tableBounded st →
      -9223372036854775808 ≤ st.nextResolverToken →
      st.nextResolverToken + calls.length < 9223372036854775808 →
      (∀ t ∈ (runLoads eng st ctx calls).2.2, st.nextResolverToken < t) ∧
      ((runLoads eng st ctx calls).2.2).Pairwise (· < ·) ∧
      (runLoads eng st ctx calls).1.resolverFuncs = st.resolverFuncs := by
  intro calls
  induction calls with
  | nil =>
      intro st ctx hB hlo hhi
      exact ⟨by simp [runLoads], by simp [runLoads], rfl⟩
  | cons c rest ih =>
      intro st ctx hB hlo hhi
      obtain ⟨src, org, r⟩ := c
      rw [List.length_cons] at hhi
      push_cast at hhi
      have hhi1 : st.nextResolverToken + 1 < 9223372036854775808 := by
        have : (0 : Int) ≤ (rest.length : Int) := Int.ofNat_nonneg _
        omega
      obtain ⟨hf, hn⟩ := goLoadModule_state eng st ctx src org r hB hlo hhi1
      have hB' := goLoadModule_bounded eng st ctx src org r hB hlo hhi1
      have hlo' : -9223372036854775808 ≤
          (GoLoadModule eng st ctx src org r).1.nextResolverToken := by
        rw [hn]
        omega
      have hhi' : (GoLoadModule eng st ctx src org r).1.nextResolverToken +
          rest.length < 9223372036854775808 := by
        rw [hn]
        omega
      obtain ⟨hgt, hpw, hf'⟩ := ih (GoLoadModule eng st ctx src org r).1
        (GoLoadModule eng st ctx src org r).2.1 hB' hlo' hhi'
      rw [hn] at hgt
      have hw : wrap64 (st.nextResolverToken + 1) = st.nextResolverToken + 1 :=
        wrap64_eq_self _ (by omega) hhi1
      have hcons : (runLoads eng st ctx ((src, org, r) :: rest)).2.2 =
          wrap64 (st.nextResolverToken + 1) ::
            (runLoads eng (GoLoadModule eng st ctx src org r).1
              (GoLoadModule eng st ctx src org r).2.1 rest).2.2 := rfl
      rw [hw] at hcons
      refine ⟨?_, ?_, ?_⟩
      · intro t ht
        rw [hcons] at ht
        rcases List.mem_cons.mp ht with rfl | htl
        · omega
        · have := hgt t htl
          omega
      · rw [hcons]
        refine List.Pairwise.cons ?_ hpw
        intro t htl
        have := hgt t htl
        omega
      · show (runLoads eng (GoLoadModule eng st ctx src org r).1
            (GoLoadModule eng st ctx src org r).2.1 rest).1.resolverFuncs =
            st.resolverFuncs
        rw [hf', hf]

/-- Counterexample to claim C8 as stated: the token counter is a
64-bit Go `int` and wraps.  With the counter at 2^63 - 2 (the state
after that many allocations), the next two `Engine.LoadModule` calls
allocate tokens 2^63 - 1 and then -2^63: the second allocated token
is smaller than the first, so tokens are not strictly greater than
every previously allocated token. -/
theorem loadModule_token_wrap_not_monotonic :
    (runLoads noDepEngine ⟨9223372036854775806, []⟩ MCtx.init
        [("a", "a.js", fun _ _ => ("", 0)), ("b", "b.js", fun _ _ => ("", 0))]).2.2 =
      [9223372036854775807, -9223372036854775808] ∧
    ¬ (([9223372036854775807, -9223372036854775808] : List Int).Pairwise (· < ·)) := by
  constructor
  · decide
  · decide

/-- Claim C8 (amended): across any sequence of `Engine.LoadModule`
calls during which the 64-bit token counter does not wrap (fewer than
2^63 allocations in total), the allocated resolver tokens are
strictly increasing (each strictly greater than the counter, hence
than every previously allocated token, so never reused); the
token-to-resolver association is created in the Go table before the
call — the C side receives the token truncated by `C.int` — and
removed when it returns, success or failure, leaving the table as it
was; and the fresh token is strictly greater than every token still
registered.  (The mutual-exclusion lock around the table is modelled
by the atomicity of these state transitions.) -/
theorem loadModule_token_monotonic_and_released
    (eng : ModuleEngine) (st : ResolverState) (ctx : MCtx)
    (calls : List (String × String × Resolver)) (hB : tableBounded st)
    (hlo : -9223372036854775808 ≤ st.nextResolverToken)
    (hhi : st.nextResolverToken + calls.length + 1 < 9223372036854775808) :
    ((runLoads eng st ctx calls).2.2).Pairwise (· < ·) ∧
    (∀ t ∈ (runLoads eng st ctx calls).2.2, st.nextResolverToken < t) ∧
    (runLoads eng st ctx calls).1.resolverFuncs = st.resolverFuncs ∧
    wrap64 (st.nextResolverToken + 1) = st.nextResolverToken + 1 ∧
    (∀ (src org : String) (r : Resolver),
      lookupA (insertA st.resolverFuncs (st.nextResolverToken + 1) r)
          (st.nextResolverToken + 1) = some r ∧
      (GoLoadModule eng st ctx src org r).1.resolverFuncs = st.resolverFuncs ∧
      ∀ p ∈ st.resolverFuncs, p.1 < st.nextResolverToken + 1) := by
  have hlen : (0 : Int) ≤ (calls.length : Int) := Int.ofNat_nonneg _
  have hhiseq : st.nextResolverToken + calls.length < 9223372036854775808 := by
    omega
  have hhi1 : st.nextResolverToken + 1 < 9223372036854775808 := by
    omega
  obtain ⟨hgt, hpw, hf⟩ := runLoads_spec eng calls st ctx hB hlo hhiseq
  refine ⟨hpw, hgt, hf, wrap64_eq_self _ (by omega) hhi1, fun src org r =>
    ⟨lookupA_insertA_self _ _ _,
     (goLoadModule_state eng st ctx src org r hB hlo hhi1).1,
     fun p hp => by have := hB p hp; omega⟩⟩

/-- Witness for `loadModule_token_monotonic_and_released`: two loads
from the empty table with the counter at 0 allocate tokens 1 then 2
and leave the table empty. -/
theorem loadModule_token_monotonic_and_released_witness :
    ((runLoads noDepEngine ⟨0, []⟩ MCtx.init
        [("a", "a.js", fun _ _ => ("", 0)), ("b", "b.js", fun _ _ => ("", 0))]).2.2).Pairwise
      (· < ·) ∧
    (runLoads noDepEngine ⟨0, []⟩ MCtx.init
        [("a", "a.js", fun _ _ => ("", 0)), ("b", "b.js", fun _ _ => ("", 0))]).1.resolverFuncs =
      ([] : List (Int × Resolver)) := by
  have hB : tableBounded (⟨0, []⟩ : ResolverState) := by
    intro p hp
    exact absurd hp (List.not_mem_nil p)
  have h := loadModule_token_monotonic_and_released noDepEngine ⟨0, []⟩ MCtx.init
    [("a", "a.js", fun _ _ => ("", 0)), ("b", "b.js", fun _ _ => ("", 0))] hB
    (by decide) (by decide)
  exact ⟨h.1, h.2.2.1⟩

end V8Engine
